import Mathlib

/-!
Shallow embedding of the trainer core in src/trainers.py (HALOs repository).

Tensors of per-example scalars (log probabilities, rewards, losses, metrics)
are modelled as lists of rationals; loss values, which pass through the
logistic sigmoid, live in the reals.  Every float computation of the source
is modelled exactly (no rounding); torch one-dimensional tensors become
lists, torch scalars become plain numbers.  Distributed collectives
(all_reduce, all_gather) are modelled by passing the contributions of the
participating processes explicitly, in rank order.  Filesystem writes,
barriers and sharding operations are modelled as event traces so that
claims about which process performs which side effect can be stated.
-/

namespace Trainers

/-- Dtype tag of a torch tensor, as an abstract code (an index into the
torch dtype table); the source only ever copies dtypes around, so the code
itself is irrelevant. -/
abbrev DType := Nat

/-- Device index of a torch tensor (the source uses torch.device cuda rank). -/
abbrev Device := Nat

/-- Model of a one-dimensional torch tensor: the entries together with the
dtype and device tags that torch attaches to every tensor. -/
structure Tensor (α : Type) where
  data : List α
  dtype : DType
  device : Device
  deriving DecidableEq

/-- torch.cat along dimension 0.  torch requires the dtypes and devices of
the parts to agree and keeps them; the model keeps the tags of the first
part (the modelled call sites always pass parts with equal tags). -/
def Tensor.cat {α : Type} (a b : Tensor α) : Tensor α :=
  ⟨a.data ++ b.data, a.dtype, a.device⟩

/-- Multiplication of a python float scalar with a float tensor
(for example desirable_weight * chosen_losses); dtype and device are kept. -/
noncomputable def Tensor.scale (c : ℚ) (t : Tensor ℝ) : Tensor ℝ :=
  ⟨t.data.map (fun x => (c : ℝ) * x), t.dtype, t.device⟩

/-- Mean of a one-dimensional tensor, torch Tensor.mean.  On the empty
tensor torch produces NaN while this model produces 0 (the Lean division
convention); every theorem whose conclusion depends on the mean of a
possibly empty tensor therefore carries a nonemptiness hypothesis, and the
code paths that deliberately consume a NaN mean are modelled through
tmeanN below instead. -/
def tmean (l : List ℚ) : ℚ := l.sum / l.length

/-- Mean of a one-dimensional tensor with the NaN case explicit: none
stands for the NaN that torch returns on an empty tensor. -/
def tmeanN (l : List ℚ) : Option ℚ := if l.isEmpty then none else some (l.sum / l.length)

/-- torch Tensor.nan_to_num with default arguments applied to a scalar that
is either an ordinary number or NaN (see tmeanN): NaN becomes 0. -/
def nanToNum0 (x : Option ℚ) : ℚ := x.getD 0

/-- torch Tensor.clamp with a min bound on a scalar: values below m are
raised to m. -/
def clampMin (x m : ℚ) : ℚ := max x m

/-- torch.nn.functional.sigmoid, the logistic function. -/
noncomputable def sigmoid (x : ℚ) : ℝ := 1 / (1 + Real.exp (-(x : ℝ)))

/-- Loss-relevant fields of the Hydra config (config.loss.beta,
config.loss.desirable_weight, config.loss.undesirable_weight). -/
structure LossConfig where
  beta : ℚ
  desirable_weight : ℚ
  undesirable_weight : ℚ

/-- SimpleKTOTrainer.loss (src/trainers.py lines 610 to 634).  Inputs are
the four one-dimensional logp tensors; the result is
(losses, chosen_rewards, rejected_rewards), with losses the concatenation
of the chosen losses and the rejected losses exactly as on line 629. -/
noncomputable def SimpleKTOTrainer.loss (cfg : LossConfig)
    (policy_chosen_logps policy_rejected_logps
     reference_chosen_logps reference_rejected_logps : List ℚ) :
    List ℝ × List ℚ × List ℚ :=
  let chosen_KL :=
    clampMin (tmean (List.zipWith (· - ·) policy_chosen_logps reference_chosen_logps)) 0
  let rejected_KL :=
    clampMin (tmean (List.zipWith (· - ·) policy_rejected_logps reference_rejected_logps)) 0
  let chosen_logratios := List.zipWith (· - ·) policy_chosen_logps reference_chosen_logps
  let rejected_logratios := List.zipWith (· - ·) policy_rejected_logps reference_rejected_logps
  let losses :=
    (chosen_logratios.map (fun z => 1 - sigmoid (cfg.beta * (z - rejected_KL)))) ++
      (rejected_logratios.map (fun z => 1 - sigmoid (cfg.beta * (chosen_KL - z))))
  (losses,
   chosen_logratios.map (fun z => cfg.beta * z),
   rejected_logratios.map (fun z => cfg.beta * z))

/-- Chosen arm of KTOTrainer.loss (src/trainers.py lines 666 to 673): when
the microbatch holds chosen examples the losses and rewards are computed
from the chosen log ratios, otherwise both tensors are the explicitly
empty torch.Tensor([]).to(policy_dtype).to(device).  The nonempty arm also
carries the policy dtype and the device because forward casts all logits
to the policy dtype (line 723) and every input lives on the device of the
worker. -/
noncomputable def ktoChosenBranch (cfg : LossConfig) (policy_dtype : DType)
    (device : Device) (KL : ℚ)
    (policy_chosen_logps reference_chosen_logps : List ℚ) : Tensor ℝ × Tensor ℚ :=
  if policy_chosen_logps.length ≠ 0 then
    let chosen_logratios := List.zipWith (· - ·) policy_chosen_logps reference_chosen_logps
    (⟨chosen_logratios.map (fun z => 1 - sigmoid (cfg.beta * (z - KL))), policy_dtype, device⟩,
     ⟨chosen_logratios.map (fun z => cfg.beta * z), policy_dtype, device⟩)
  else
    (⟨[], policy_dtype, device⟩, ⟨[], policy_dtype, device⟩)

/-- Rejected arm of KTOTrainer.loss (src/trainers.py lines 675 to 682),
symmetric to ktoChosenBranch with the sigmoid argument KL minus the log
ratio. -/
noncomputable def ktoRejectedBranch (cfg : LossConfig) (policy_dtype : DType)
    (device : Device) (KL : ℚ)
    (policy_rejected_logps reference_rejected_logps : List ℚ) : Tensor ℝ × Tensor ℚ :=
  if policy_rejected_logps.length ≠ 0 then
    let rejected_logratios := List.zipWith (· - ·) policy_rejected_logps reference_rejected_logps
    (⟨rejected_logratios.map (fun z => 1 - sigmoid (cfg.beta * (KL - z))), policy_dtype, device⟩,
     ⟨rejected_logratios.map (fun z => cfg.beta * z), policy_dtype, device⟩)
  else
    (⟨[], policy_dtype, device⟩, ⟨[], policy_dtype, device⟩)

/-- KTOTrainer.loss (src/trainers.py lines 638 to 686).  The local KL
estimate is the mean of policy_KL_logps minus reference_KL_logps
(line 660); dist.nn.all_reduce with ReduceOp.SUM (line 662) adds to it the
local KL estimates of the other world_size minus one processes, passed
here as otherKLs in rank order; the sum is divided by world_size and
clamped at 0 (line 664).  The result is
(losses, chosen_rewards, rejected_rewards, KL) as on line 686, with losses
the concatenation of desirable_weight times the chosen losses and
undesirable_weight times the rejected losses (line 684). -/
noncomputable def KTOTrainer.loss (cfg : LossConfig) (policy_dtype : DType)
    (device : Device) (world_size : ℕ) (otherKLs : List ℚ)
    (policy_chosen_logps policy_rejected_logps policy_KL_logps
     reference_chosen_logps reference_rejected_logps reference_KL_logps : List ℚ) :
    Tensor ℝ × Tensor ℚ × Tensor ℚ × ℚ :=
  let localKL := tmean (List.zipWith (· - ·) policy_KL_logps reference_KL_logps)
  let reducedKL := localKL + otherKLs.sum
  let KL := clampMin (reducedKL / (world_size : ℚ)) 0
  let chosen := ktoChosenBranch cfg policy_dtype device KL
    policy_chosen_logps reference_chosen_logps
  let rejected := ktoRejectedBranch cfg policy_dtype device KL
    policy_rejected_logps reference_rejected_logps
  let losses := Tensor.cat (Tensor.scale cfg.desirable_weight chosen.1)
    (Tensor.scale cfg.undesirable_weight rejected.1)
  (losses, chosen.2, rejected.2, KL)

/-- KTOZeroTrainer.loss (src/trainers.py lines 779 to 806): the KTO variant
with the reference point fixed at 0 in both sigmoid arguments
(line 801). -/
noncomputable def KTOZeroTrainer.loss (cfg : LossConfig)
    (policy_chosen_logps policy_rejected_logps
     reference_chosen_logps reference_rejected_logps : List ℚ) :
    List ℝ × List ℚ × List ℚ :=
  let chosen_logratios := List.zipWith (· - ·) policy_chosen_logps reference_chosen_logps
  let rejected_logratios := List.zipWith (· - ·) policy_rejected_logps reference_rejected_logps
  let losses :=
    (chosen_logratios.map (fun z => 1 - sigmoid (cfg.beta * (z - 0)))) ++
      (rejected_logratios.map (fun z => 1 - sigmoid (cfg.beta * (0 - z))))
  (losses,
   chosen_logratios.map (fun z => cfg.beta * z),
   rejected_logratios.map (fun z => cfg.beta * z))

/-- Index list of the python comprehension
[i for i in range(len(xs)) if xs[i] == v]. -/
def idxWhere {α : Type} [DecidableEq α] (xs : List α) (v : α) : List ℕ :=
  (List.range xs.length).filter (fun i => xs[i]? = some v)

/-- Integer-array indexing xs[idx, ...] of a tensor by a list of indices;
out of range indices are dropped (they never occur at the modelled call
sites, where every index comes from range(len(xs))). -/
def selectIdx {β : Type} (xs : List β) (idx : List ℕ) : List β :=
  idx.filterMap (fun i => xs[i]?)

/-- Status partition performed by UnpairedPreferenceTrainer.forward
(src/trainers.py lines 562 to 568) and identically by KTOTrainer.forward
on the target rows (lines 729 to 733): all_logps is the per-example logp
tensor produced by the model pass, status the per-example tag list of the
microbatch.  The assert on line 562 compares the tensor length with the
status length; under it the comprehension over range(all_logps.shape[0])
coincides with idxWhere over the status list.  A failed python assert
raises AssertionError. -/
def UnpairedPreferenceTrainer.forward (all_logps : List ℚ) (status : List String) :
    Except String (List ℚ × List ℚ) :=
  if all_logps.length = status.length then
    Except.ok (selectIdx all_logps (idxWhere status "chosen"),
               selectIdx all_logps (idxWhere status "rejected"))
  else
    Except.error "AssertionError"

/-- Modelled from the spec: all_gather_if_needed lives in utils.py, which
is not under src/.  Spec section 4.1: the gather concatenates the
contribution of every worker in rank order.  Per worker the code
concatenates chosen rewards and rejected rewards (line 586 and line 755),
so world lists the (chosen_rewards, rejected_rewards) pair of every
process in rank order and the gathered reward tensor is the rank-order
concatenation of those concatenations. -/
def gatherRewards (world : List (List ℚ × List ℚ)) : List ℚ :=
  (world.map (fun w => w.1 ++ w.2)).flatten

/-- Gathered status tensor matching gatherRewards: each worker builds
torch.Tensor([1] * len(chosen_rewards) + [0] * len(rejected_rewards))
(line 587 and line 756) and the gather concatenates them in rank order. -/
def gatherStatuses (world : List (List ℚ × List ℚ)) : List ℕ :=
  (world.map (fun w => List.replicate w.1.length 1 ++ List.replicate w.2.length 0)).flatten

/-- Reward margin metric rewards/margins of
UnpairedPreferenceTrainer.get_batch_metrics (src/trainers.py line 597) and
KTOTrainer.get_batch_metrics (line 768):
all_rewards[chosen_idx].mean().nan_to_num(0) minus
all_rewards[rejected_idx].mean().nan_to_num(0), where chosen_idx and
rejected_idx select the gathered statuses equal to 1 and 0
(lines 591 to 592 and 761 to 762). -/
def rewardMargin (world : List (List ℚ × List ℚ)) : ℚ :=
  let all_rewards := gatherRewards world
  let all_statuses := gatherStatuses world
  nanToNum0 (tmeanN (selectIdx all_rewards (idxWhere all_statuses 1))) -
    nanToNum0 (tmeanN (selectIdx all_rewards (idxWhere all_statuses 0)))

/-- Mean with the empty list sent to 0, the shape claim C5 gives for each
side of the margin. -/
def meanOrZero (l : List ℚ) : ℚ := if l.isEmpty then 0 else l.sum / l.length

/-- Observable actions of one pass of the gradient-update portion of the
training loop. -/
inductive TrainAction where
  | backward (grad : ℚ)
  | clipGradNorm
  | appendGradNormMetric
  | optimizerStep
  | zeroGrad
  | schedulerStep
  deriving DecidableEq

/-- Gradient-update portion of one iteration of BasicTrainer.train
(src/trainers.py lines 396 to 410): the batch loss is divided by
gradient_accumulation_steps and backpropagated (line 396), the
accumulation counter is incremented (line 401) and, exactly when it
reaches gradient_accumulation_steps, the gradient norm is clipped and
recorded, the optimizer steps, the gradients are zeroed, the scheduler
steps and the counter resets to 0 (lines 403 to 410).  Returns the new
counter and the emitted actions in program order. -/
def BasicTrainer.trainStep (gradient_accumulation_steps : ℕ) (loss : ℚ)
    (gradients_accumulated : ℕ) : ℕ × List TrainAction :=
  let acts := [TrainAction.backward (loss / (gradient_accumulation_steps : ℚ))]
  let acc := gradients_accumulated + 1
  if acc = gradient_accumulation_steps then
    (0, acts ++ [TrainAction.clipGradNorm, TrainAction.appendGradNormMetric,
                 TrainAction.optimizerStep, TrainAction.zeroGrad,
                 TrainAction.schedulerStep])
  else
    (acc, acts)

/-- lr_lambda of the LambdaLR scheduler built in BasicTrainer.train
(src/trainers.py line 342): min(1.0, (step + 1) / (warmup_steps + 1)),
the linear warmup multiplier. -/
def BasicTrainer.lrLambda (warmup_steps step : ℕ) : ℚ :=
  min 1 (((step : ℚ) + 1) / ((warmup_steps : ℚ) + 1))

/-- Observable events of BasicTrainer.save. -/
inductive SaveEvent where
  | gatherPolicyStateDict
  | writePolicy
  | saveTokenizer
  | gatherOptimizerStateDict
  | writeOptimizer
  | writeScheduler
  | barrier
  deriving DecidableEq

/-- Python del of a local variable: a no-op result when the name is bound
in the current call, otherwise it raises
NameError (UnboundLocalError). -/
def pyDel (bound : Bool) (name : String) : Except String Unit :=
  if bound then Except.ok () else
    Except.error ("NameError: name " ++ name ++ " is not defined")

/-- BasicTrainer.save (src/trainers.py lines 477 to 522) as the event
trace of one process, or the error it raises.  In the fsdp branch,
policy_state_dict (line 485) and optimizer_state_dict (line 497) are
assigned on every rank by the gathering state_dict calls (with rank0_only
the non-coordinating ranks receive an empty dict but the name is bound),
while scheduler_state_dict (line 505) is assigned only under the
rank == 0 guard; the del statements on lines 491, 501 and 507 run on every
rank. -/
def BasicTrainer.save (fsdp : Bool) (rank : ℕ) (save_model_only : Bool) :
    Except String (List SaveEvent) :=
  if fsdp then do
    let t := [SaveEvent.gatherPolicyStateDict]
    let t := t ++ (if rank = 0 then [SaveEvent.writePolicy, SaveEvent.saveTokenizer] else [])
    pyDel true "policy_state_dict" -- bound on every rank by line 485
    let t := t ++ [SaveEvent.barrier]
    if ¬ save_model_only then
      let t := t ++ [SaveEvent.gatherOptimizerStateDict]
      let t := t ++ (if rank = 0 then [SaveEvent.writeOptimizer] else [])
      pyDel true "optimizer_state_dict" -- bound on every rank by line 497
      let t := t ++ [SaveEvent.barrier]
      let t := t ++ (if rank = 0 then [SaveEvent.writeScheduler] else [])
      pyDel (rank == 0) "scheduler_state_dict" -- bound only on rank 0, line 505
      pure (t ++ [SaveEvent.barrier])
    else
      pure t
  else do
    let t := [SaveEvent.saveTokenizer, SaveEvent.writePolicy]
    pyDel true "policy_state_dict"
    if ¬ save_model_only then
      let t := t ++ [SaveEvent.writeOptimizer]
      pyDel true "optimizer_state_dict"
      let t := t ++ [SaveEvent.writeScheduler]
      pyDel true "scheduler_state_dict"
      pure t
    else
      pure t

/-- Observable events of BasicTrainer.shard. -/
inductive ShardEvent where
  | shardPolicy
  | shardValueHead
  | shardReference
  | logAttemptCheckpointing
  | logCheckpointingUnavailable
  | applyCheckpointingPolicy
  | applyCheckpointingReference
  | logLoadedModel
  | barrier
  deriving DecidableEq

/-- BasicTrainer.shard (src/trainers.py lines 111 to 185) as the event
trace of one process, or the error of the assert on line 115.
checkpoint_import_ok records whether the import of the activation
checkpointing support (lines 163 to 167) succeeds; an import failure is
caught by the except clause on line 168, which logs and skips the else
block, so it never escapes. -/
def BasicTrainer.shard (block_name : Option String)
    (is_ppo has_reference activation_checkpointing checkpoint_import_ok : Bool) :
    Except String (List ShardEvent) :=
  if block_name = none then
    Except.error "must specify model.block_name (e.g., GPT2Block or GPTNeoXLayer) for FSDP"
  else
    Except.ok (
      (if is_ppo then [ShardEvent.shardPolicy, ShardEvent.shardValueHead]
       else [ShardEvent.shardPolicy]) ++
      (if has_reference then [ShardEvent.shardReference] else []) ++
      (if activation_checkpointing then
        [ShardEvent.logAttemptCheckpointing] ++
        (if checkpoint_import_ok then
          [ShardEvent.applyCheckpointingPolicy] ++
          (if has_reference then [ShardEvent.applyCheckpointingReference] else [])
        else [ShardEvent.logCheckpointingUnavailable])
      else []) ++
      [ShardEvent.logLoadedModel, ShardEvent.barrier])

/-- Metric averaging of BasicTrainer.eval (src/trainers.py lines 264 to
267) and of the eval and logging blocks of BasicTrainer.train (lines 369
to 372 and 423 to 426): for k, v in accumulated metrics, the mean
sum(v) / len(v) is recorded exactly when len(v) > 0.  The defaultdict of
observation lists is modelled as an association list. -/
def BasicTrainer.meanMetrics (all_metrics : List (String × List ℚ)) : List (String × ℚ) :=
  all_metrics.filterMap (fun kv =>
    if 0 < kv.2.length then some (kv.1, kv.2.sum / (kv.2.length : ℚ)) else none)

/-- Modelled from the spec: get_batch_logps lives in utils.py, which is
not under src/.  Spec section 4.2: for each example, sum the
log-probability assigned to the true label token at every non-ignored
position, and divide by the count of non-ignored positions exactly when
average_log_prob is requested (an example with zero non-ignored positions
yields 0, per the spec edge case and the Lean division convention).  The
log-softmax gather is abstracted away: token_logps already holds, per
example and per position, the log-probability the model assigns to the
(shifted) label at that position, and mask holds, in parallel, whether the
position is non-ignored. -/
def get_batch_logps (token_logps : List (List ℚ)) (mask : List (List Bool))
    (average_log_prob : Bool) : List ℚ :=
  (token_logps.zip mask).map (fun em =>
    let kept := ((em.1.zip em.2).filter (fun p => p.2)).map (fun p => p.1)
    if average_log_prob then kept.sum / (kept.length : ℚ) else kept.sum)

/-- Sum of the per-token log probabilities at the non-ignored positions of
one example; the quantity claim C7 compares the SFT loss against. -/
def keptSum (logps : List ℚ) (m : List Bool) : ℚ :=
  (((logps.zip m).filter (fun p => p.2)).map (fun p => p.1)).sum

/-- SFTTrainer.get_batch_metrics (src/trainers.py lines 526 to 547).  The
policy forward pass is abstracted to its result, the per-token label
log-probabilities token_logps with mask (see get_batch_logps); no
reference model is consulted and no reward tensors are formed.  Losses are
the negated unnormalized logps (line 539 with average_log_prob=False on
line 538); the function returns (losses.mean(), metrics) with the two
metric keys of lines 544 and 545 (the all_gather used there for reporting
concatenates identical per-process values and is the identity for one
process). -/
def SFTTrainer.get_batch_metrics (mode : String) (token_logps : List (List ℚ))
    (mask : List (List Bool)) : ℚ × List (String × List ℚ) :=
  let policy_chosen_logps := get_batch_logps token_logps mask false
  let losses := policy_chosen_logps.map (fun x => -x)
  (tmean losses,
   [("logps_" ++ mode ++ "/chosen", policy_chosen_logps),
    ("loss/" ++ mode, losses)])

/-! Helper lemmas about python index comprehensions and integer-array
indexing, shared by the theorems below. -/

theorem idxWhere_nil {α : Type} [DecidableEq α] (v : α) : idxWhere ([] : List α) v = [] := rfl

theorem idxWhere_cons {α : Type} [DecidableEq α] (x : α) (xs : List α) (v : α) :
    idxWhere (x :: xs) v = (if x = v then [0] else []) ++ (idxWhere xs v).map (· + 1) := by
  unfold idxWhere
  rw [List.length_cons, List.range_succ_eq_map, List.filter_cons, List.filter_map]
  by_cases h : x = v
  · simp [h, Function.comp_def, Nat.succ_eq_add_one]
  · simp [h, Function.comp_def, Nat.succ_eq_add_one]

theorem selectIdx_append {β : Type} (xs : List β) (a b : List ℕ) :
    selectIdx xs (a ++ b) = selectIdx xs a ++ selectIdx xs b := by
  unfold selectIdx; exact List.filterMap_append a b _

theorem selectIdx_cons_shift {β : Type} (y : β) (ys : List β) (idx : List ℕ) :
    selectIdx (y :: ys) (idx.map (· + 1)) = selectIdx ys idx := by
  unfold selectIdx
  rw [List.filterMap_map]
  simp [Function.comp_def]

theorem select_idxWhere_cons {α β : Type} [DecidableEq α] (x : α) (xs : List α)
    (y : β) (ys : List β) (v : α) :
    selectIdx (y :: ys) (idxWhere (x :: xs) v) =
      (if x = v then [y] else []) ++ selectIdx ys (idxWhere xs v) := by
  rw [idxWhere_cons, selectIdx_append, selectIdx_cons_shift]
  by_cases h : x = v <;> simp [h, selectIdx]

theorem select_idxWhere_append {α β : Type} [DecidableEq α] (s₁ s₂ : List α)
    (r₁ r₂ : List β) (v : α) (h : r₁.length = s₁.length) :
    selectIdx (r₁ ++ r₂) (idxWhere (s₁ ++ s₂) v) =
      selectIdx r₁ (idxWhere s₁ v) ++ selectIdx r₂ (idxWhere s₂ v) := by
  induction s₁ generalizing r₁ with
  | nil =>
    rw [List.length_nil, List.length_eq_zero] at h
    subst h; simp [idxWhere_nil, selectIdx]
  | cons x xs ih =>
    cases r₁ with
    | nil => simp at h
    | cons y ys =>
      simp only [List.length_cons, Nat.succ_inj] at h
      rw [List.cons_append, List.cons_append, select_idxWhere_cons,
        select_idxWhere_cons, ih _ h]
      by_cases hxv : x = v <;> simp [hxv]

theorem select_idxWhere_replicate_self {α β : Type} [DecidableEq α] (a : α) (ys : List β) :
    selectIdx ys (idxWhere (List.replicate ys.length a) a) = ys := by
  induction ys with
  | nil => rfl
  | cons y t ih => simp [List.replicate_succ, select_idxWhere_cons, ih]

theorem select_idxWhere_replicate_ne {α β : Type} [DecidableEq α] {a b : α}
    (hab : a ≠ b) (ys : List β) :
    selectIdx ys (idxWhere (List.replicate ys.length a) b) = [] := by
  induction ys with
  | nil => rfl
  | cons y t ih => simp [List.replicate_succ, select_idxWhere_cons, hab, ih]

theorem select_two_length_le {α β : Type} [DecidableEq α] (a b : α) (hab : a ≠ b)
    (xs : List α) (ys : List β) (h : ys.length = xs.length) :
    (selectIdx ys (idxWhere xs a)).length + (selectIdx ys (idxWhere xs b)).length ≤
      ys.length := by
  induction xs generalizing ys with
  | nil =>
    rw [List.length_nil, List.length_eq_zero] at h
    subst h; simp [idxWhere_nil, selectIdx]
  | cons x xs ih =>
    cases ys with
    | nil => simp at h
    | cons y ys =>
      simp only [List.length_cons, Nat.succ_inj] at h
      rw [select_idxWhere_cons, select_idxWhere_cons, List.length_append,
        List.length_append]
      have hy := ih ys h
      by_cases hxa : x = a <;> by_cases hxb : x = b
      · exact absurd (hxa.symm.trans hxb) hab
      · simp only [if_pos hxa, if_neg hxb, List.length_cons, List.length_nil]
        omega
      · simp only [if_neg hxa, if_pos hxb, List.length_cons, List.length_nil]
        omega
      · simp only [if_neg hxa, if_neg hxb, List.length_nil, List.length_cons]
        omega

theorem select_two_cover_iff {α β : Type} [DecidableEq α] (a b : α) (hab : a ≠ b)
    (xs : List α) (ys : List β) (h : ys.length = xs.length) :
    ((selectIdx ys (idxWhere xs a)).length + (selectIdx ys (idxWhere xs b)).length =
        ys.length) ↔
      ∀ s ∈ xs, s = a ∨ s = b := by
  induction xs generalizing ys with
  | nil =>
    rw [List.length_nil, List.length_eq_zero] at h
    subst h; simp [idxWhere_nil, selectIdx]
  | cons x xs ih =>
    cases ys with
    | nil => simp at h
    | cons y ys =>
      simp only [List.length_cons, Nat.succ_inj] at h
      rw [select_idxWhere_cons, select_idxWhere_cons, List.length_append,
        List.length_append]
      have hy := ih ys h
      have hle := select_two_length_le a b hab xs ys h
      simp only [List.mem_cons, forall_eq_or_imp]
      by_cases hxa : x = a <;> by_cases hxb : x = b
      · exact absurd (hxa.symm.trans hxb) hab
      · simp only [if_pos hxa, if_neg hxb, List.length_cons, List.length_nil]
        constructor
        · intro hsum
          exact ⟨Or.inl hxa, hy.mp (by omega)⟩
        · intro hall
          have := hy.mpr hall.2
          omega
      · simp only [if_neg hxa, if_pos hxb, List.length_cons, List.length_nil]
        constructor
        · intro hsum
          exact ⟨Or.inr hxb, hy.mp (by omega)⟩
        · intro hall
          have := hy.mpr hall.2
          omega
      · simp only [if_neg hxa, if_neg hxb, List.length_nil, List.length_cons]
        constructor
        · intro hsum
          omega
        · intro hall
          rcases hall.1 with h1 | h1
          · exact absurd h1 hxa
          · exact absurd h1 hxb

theorem gather_select_chosen (world : List (List ℚ × List ℚ)) :
    selectIdx (gatherRewards world) (idxWhere (gatherStatuses world) 1) =
      (world.map (fun w => w.1)).flatten := by
  induction world with
  | nil => rfl
  | cons w ws ih =>
    simp only [gatherRewards, gatherStatuses, List.map_cons, List.flatten_cons] at *
    rw [select_idxWhere_append _ _ _ _ _ (by simp),
      select_idxWhere_append _ _ _ _ _ (by simp),
      select_idxWhere_replicate_self,
      select_idxWhere_replicate_ne (by decide : (0 : ℕ) ≠ 1), ih]
    simp

theorem gather_select_rejected (world : List (List ℚ × List ℚ)) :
    selectIdx (gatherRewards world) (idxWhere (gatherStatuses world) 0) =
      (world.map (fun w => w.2)).flatten := by
  induction world with
  | nil => rfl
  | cons w ws ih =>
    simp only [gatherRewards, gatherStatuses, List.map_cons, List.flatten_cons] at *
    rw [select_idxWhere_append _ _ _ _ _ (by simp),
      select_idxWhere_append _ _ _ _ _ (by simp),
      select_idxWhere_replicate_self,
      select_idxWhere_replicate_ne (by decide : (1 : ℕ) ≠ 0), ih]
    simp

theorem nanToNum0_tmeanN (l : List ℚ) : nanToNum0 (tmeanN l) = meanOrZero l := by
  unfold nanToNum0 tmeanN meanOrZero
  by_cases h : l.isEmpty <;> simp [h]

/-- Claim C5: the reward margin metric emitted by get_batch_metrics (of
UnpairedPreferenceTrainer and of KTOTrainer) equals the mean of the
gathered chosen rewards minus the mean of the gathered rejected rewards,
where the mean of an empty partition enters the subtraction as 0 (through
nan_to_num) instead of NaN, so the margin is always a finite number. -/
theorem rewardMargin_eq_mean_sub_mean (world : List (List ℚ × List ℚ)) :
    rewardMargin world =
      meanOrZero ((world.map (fun w => w.1)).flatten) -
        meanOrZero ((world.map (fun w => w.2)).flatten) := by
  unfold rewardMargin
  simp only [gather_select_chosen, gather_select_rejected, nanToNum0_tmeanN]

/-- Claim C9: the chosen and rejected partition in
UnpairedPreferenceTrainer.forward and KTOTrainer.forward is decided by
exact string equality of each status tag; a batch whose status list length
differs from the number of logp rows raises an assertion, while a tag that
is neither chosen nor rejected is silently dropped from both partitions
without any error, so the two partitions together cover the whole
microbatch exactly when every tag is chosen or rejected. -/
theorem forward_status_partition (all_logps : List ℚ) (status : List String)
    (h : all_logps.length = status.length) :
    UnpairedPreferenceTrainer.forward all_logps status =
      Except.ok (selectIdx all_logps (idxWhere status "chosen"),
                 selectIdx all_logps (idxWhere status "rejected")) ∧
    ((selectIdx all_logps (idxWhere status "chosen")).length +
        (selectIdx all_logps (idxWhere status "rejected")).length =
          all_logps.length ↔
      ∀ s ∈ status, s = "chosen" ∨ s = "rejected") ∧
    (∀ logps2 : List ℚ, ∀ status2 : List String, logps2.length ≠ status2.length →
      UnpairedPreferenceTrainer.forward logps2 status2 =
        Except.error "AssertionError") := by
  refine ⟨?_, ?_, ?_⟩
  · unfold UnpairedPreferenceTrainer.forward
    rw [if_pos h]
  · exact select_two_cover_iff "chosen" "rejected" (by decide) status all_logps h
  · intro l2 s2 h2
    unfold UnpairedPreferenceTrainer.forward
    rw [if_neg h2]

/-- Witness for forward_status_partition at a concrete microbatch with one
chosen tag, one foreign tag and one rejected tag. -/
theorem forward_status_partition_witness :
    UnpairedPreferenceTrainer.forward [(1 : ℚ), 2, 3] ["chosen", "banana", "rejected"] =
      Except.ok ([(1 : ℚ)], [(3 : ℚ)]) :=
  ((forward_status_partition [(1 : ℚ), 2, 3] ["chosen", "banana", "rejected"]
      rfl).1).trans (congrArg Except.ok (by decide))

/-- Claim C10: when averaging accumulated metrics in evaluation and in
train logging, a metric key appears in the reported mean dictionary
exactly when its observation list is nonempty, and then its value is the
sum of the observations divided by their (positive) count; an empty
observation list therefore never yields a division by zero, a NaN, or a
spurious zero entry. -/
theorem meanMetrics_mem_iff (all_metrics : List (String × List ℚ)) (k : String) (x : ℚ) :
    (k, x) ∈ BasicTrainer.meanMetrics all_metrics ↔
      ∃ v, (k, v) ∈ all_metrics ∧ 0 < v.length ∧ x = v.sum / (v.length : ℚ) := by
  induction all_metrics with
  | nil => simp [BasicTrainer.meanMetrics]
  | cons kv rest ih =>
    obtain ⟨k0, v0⟩ := kv
    unfold BasicTrainer.meanMetrics at *
    rw [List.filterMap_cons]
    by_cases hlen : 0 < v0.length
    · rw [if_pos hlen]
      constructor
      · intro hmem
        rcases List.mem_cons.mp hmem with heq | hmem2
        · rw [Prod.mk.injEq] at heq
          exact ⟨v0, List.mem_cons.mpr (Or.inl (by rw [heq.1])), hlen, heq.2⟩
        · obtain ⟨v, hv, hl, hx⟩ := ih.mp hmem2
          exact ⟨v, List.mem_cons.mpr (Or.inr hv), hl, hx⟩
      · rintro ⟨v, hv, hl, hx⟩
        rcases List.mem_cons.mp hv with hv1 | hv2
        · rw [Prod.mk.injEq] at hv1
          refine List.mem_cons.mpr (Or.inl ?_)
          rw [Prod.mk.injEq]
          exact ⟨hv1.1, by rw [hx, hv1.2]⟩
        · exact List.mem_cons.mpr (Or.inr (ih.mpr ⟨v, hv2, hl, hx⟩))
    · rw [if_neg hlen]
      constructor
      · intro hmem
        obtain ⟨v, hv, hl, hx⟩ := ih.mp hmem
        exact ⟨v, List.mem_cons.mpr (Or.inr hv), hl, hx⟩
      · rintro ⟨v, hv, hl, hx⟩
        rcases List.mem_cons.mp hv with hv1 | hv2
        · rw [Prod.mk.injEq] at hv1
          rw [hv1.2] at hl
          exact absurd hl hlen
        · exact ih.mpr ⟨v, hv2, hl, hx⟩

/-- Claim C6: each training step backpropagates the batch loss scaled by
one over gradient_accumulation_steps and, exactly when the accumulation
counter reaches gradient_accumulation_steps, in order clips the gradient
norm, steps the optimizer, zeroes the gradients, steps the learning rate
scheduler and resets the counter to 0; on every other step the optimizer
and the scheduler are not stepped.  The last conjunct pins the linear
warmup shape of the scheduler multiplier. -/
theorem trainStep_spec (g : ℕ) (loss : ℚ) (acc : ℕ) (w step : ℕ) :
    ((BasicTrainer.trainStep g loss acc).2.head? =
      some (TrainAction.backward (loss / (g : ℚ)))) ∧
    (acc + 1 = g →
      BasicTrainer.trainStep g loss acc =
        (0, [TrainAction.backward (loss / (g : ℚ)), TrainAction.clipGradNorm,
             TrainAction.appendGradNormMetric, TrainAction.optimizerStep,
             TrainAction.zeroGrad, TrainAction.schedulerStep])) ∧
    (acc + 1 ≠ g →
      BasicTrainer.trainStep g loss acc =
        (acc + 1, [TrainAction.backward (loss / (g : ℚ))]) ∧
      TrainAction.optimizerStep ∉ (BasicTrainer.trainStep g loss acc).2 ∧
      TrainAction.schedulerStep ∉ (BasicTrainer.trainStep g loss acc).2) ∧
    (BasicTrainer.lrLambda w step =
      if w ≤ step then 1 else ((step : ℚ) + 1) / ((w : ℚ) + 1)) := by
  refine ⟨?_, ?_, ?_, ?_⟩
  · unfold BasicTrainer.trainStep
    by_cases hg : acc + 1 = g <;> simp [hg]
  · intro hg
    unfold BasicTrainer.trainStep
    simp [hg]
  · intro hg
    unfold BasicTrainer.trainStep
    simp [hg]
  · unfold BasicTrainer.lrLambda
    by_cases hws : w ≤ step
    · rw [if_pos hws]
      refine min_eq_left ?_
      rw [le_div_iff₀ (by positivity), one_mul]
      have : (w : ℚ) ≤ (step : ℚ) := Nat.cast_le.mpr hws
      linarith
    · rw [if_neg hws]
      refine min_eq_right ?_
      rw [div_le_one (by positivity)]
      have : (step : ℚ) + 1 ≤ (w : ℚ) := by
        have : (step : ℚ) + 1 ≤ ((w : ℚ)) := by
          have hsw : step + 1 ≤ w := Nat.succ_le_of_lt (Nat.lt_of_not_le hws)
          exact_mod_cast Nat.cast_le.mpr hsw
        exact this
      linarith

/-- Witness for trainStep_spec at the boundary step and at a non boundary
step with two accumulation steps configured. -/
theorem trainStep_spec_witness :
    BasicTrainer.trainStep 2 3 1 =
      (0, [TrainAction.backward ((3 : ℚ) / ((2 : ℕ) : ℚ)), TrainAction.clipGradNorm,
           TrainAction.appendGradNormMetric, TrainAction.optimizerStep,
           TrainAction.zeroGrad, TrainAction.schedulerStep]) ∧
    (BasicTrainer.trainStep 2 3 0 =
        (1, [TrainAction.backward ((3 : ℚ) / ((2 : ℕ) : ℚ))]) ∧
      TrainAction.optimizerStep ∉ (BasicTrainer.trainStep 2 3 0).2 ∧
      TrainAction.schedulerStep ∉ (BasicTrainer.trainStep 2 3 0).2) :=
  ⟨(trainStep_spec 2 3 1 0 0).2.1 rfl, (trainStep_spec 2 3 0 0 0).2.2.1 (by decide)⟩

/-- Claim C7: SFTTrainer.get_batch_metrics computes, for every example of
the batch, one loss equal to the negated unnormalized (summed, not length
averaged) log probability of the target sequence under the policy,
consults no reference model and forms no chosen or rejected reward split
(its only metric keys are the policy logps and the losses), and returns
the mean of the per-example losses as the batch loss. -/
theorem sft_loss_neg_unnormalized_logp (mode : String) (token_logps : List (List ℚ))
    (mask : List (List Bool)) (h : token_logps.length = mask.length) :
    (SFTTrainer.get_batch_metrics mode token_logps mask).1 =
      tmean ((token_logps.zip mask).map (fun em => -(keptSum em.1 em.2))) ∧
    (SFTTrainer.get_batch_metrics mode token_logps mask).2 =
      [("logps_" ++ mode ++ "/chosen",
          (token_logps.zip mask).map (fun em => keptSum em.1 em.2)),
       ("loss/" ++ mode,
          (token_logps.zip mask).map (fun em => -(keptSum em.1 em.2)))] ∧
    ((token_logps.zip mask).map (fun em => -(keptSum em.1 em.2))).length =
      token_logps.length := by
  have hlogps : get_batch_logps token_logps mask false =
      (token_logps.zip mask).map (fun em => keptSum em.1 em.2) := by
    unfold get_batch_logps keptSum
    simp
  refine ⟨?_, ?_, ?_⟩
  · simp only [SFTTrainer.get_batch_metrics, hlogps, List.map_map, Function.comp_def]
  · simp only [SFTTrainer.get_batch_metrics, hlogps, List.map_map, Function.comp_def]
  · rw [List.length_map, List.length_zip, h, min_self]

/-- Witness for sft_loss_neg_unnormalized_logp at a concrete two-example
batch with a masked position. -/
theorem sft_loss_neg_unnormalized_logp_witness :
    (SFTTrainer.get_batch_metrics "train" [[(1 : ℚ), 2], [3]]
        [[true, false], [true]]).1 =
      tmean ((([[(1 : ℚ), 2], [3]]).zip [[true, false], [true]]).map
        (fun em => -(keptSum em.1 em.2))) :=
  (sft_loss_neg_unnormalized_logp "train" [[(1 : ℚ), 2], [3]]
    [[true, false], [true]] rfl).1

/-- Claim C8: when activation checkpointing is enabled in the
configuration but the runtime checkpointing support cannot be imported,
BasicTrainer.shard logs the unavailability and continues: the trace is an
ok trace ending in the barrier (sharding completes, no exception escapes)
and contains no application of activation checkpointing. -/
theorem shard_checkpointing_unavailable (block_name : String)
    (is_ppo has_reference : Bool) :
    (∃ tr, BasicTrainer.shard (some block_name) is_ppo has_reference true false =
      Except.ok tr) ∧
    (∀ tr, BasicTrainer.shard (some block_name) is_ppo has_reference true false =
        Except.ok tr →
      ShardEvent.logCheckpointingUnavailable ∈ tr ∧
      ShardEvent.applyCheckpointingPolicy ∉ tr ∧
      ShardEvent.applyCheckpointingReference ∉ tr ∧
      tr.getLast? = some ShardEvent.barrier) := by
  constructor
  · exact ⟨_, by unfold BasicTrainer.shard; rw [if_neg (by simp)]⟩
  · intro tr htr
    unfold BasicTrainer.shard at htr
    rw [if_neg (by simp), Except.ok.injEq] at htr
    subst htr
    cases is_ppo <;> cases has_reference <;> decide

/-- Witness for shard_checkpointing_unavailable at a concrete block name
without ppo and without a reference model. -/
theorem shard_checkpointing_unavailable_witness :
    ShardEvent.logCheckpointingUnavailable ∈
      [ShardEvent.shardPolicy, ShardEvent.logAttemptCheckpointing,
       ShardEvent.logCheckpointingUnavailable, ShardEvent.logLoadedModel,
       ShardEvent.barrier] ∧
    ShardEvent.applyCheckpointingPolicy ∉
      [ShardEvent.shardPolicy, ShardEvent.logAttemptCheckpointing,
       ShardEvent.logCheckpointingUnavailable, ShardEvent.logLoadedModel,
       ShardEvent.barrier] ∧
    ShardEvent.applyCheckpointingReference ∉
      [ShardEvent.shardPolicy, ShardEvent.logAttemptCheckpointing,
       ShardEvent.logCheckpointingUnavailable, ShardEvent.logLoadedModel,
       ShardEvent.barrier] ∧
    ([ShardEvent.shardPolicy, ShardEvent.logAttemptCheckpointing,
      ShardEvent.logCheckpointingUnavailable, ShardEvent.logLoadedModel,
      ShardEvent.barrier]).getLast? = some ShardEvent.barrier :=
  (shard_checkpointing_unavailable "GPT2Block" false false).2
    [ShardEvent.shardPolicy, ShardEvent.logAttemptCheckpointing,
     ShardEvent.logCheckpointingUnavailable, ShardEvent.logLoadedModel,
     ShardEvent.barrier] rfl

/-- Claim C3 records a code bug: in the sharded full-state path
(save_model_only False) the del of scheduler_state_dict on line 507 of
src/trainers.py runs on every rank although the name is bound only under
the rank 0 guard on line 505, so a non-coordinating rank raises NameError
and never reaches the final barrier; evaluated here at rank 1. -/
theorem save_full_state_rank1_name_error :
    BasicTrainer.save true 1 false =
      Except.error "NameError: name scheduler_state_dict is not defined" := by
  rfl

theorem sigmoid_zero : sigmoid 0 = 1 / 2 := by
  unfold sigmoid
  norm_num [Real.exp_zero]

theorem zipWith_sub_self (l : List ℚ) :
    List.zipWith (· - ·) l l = List.replicate l.length 0 := by
  induction l with
  | nil => rfl
  | cons x t ih => simp [List.replicate_succ, ih]

theorem tmean_replicate_zero (n : ℕ) : tmean (List.replicate n 0) = 0 := by
  simp [tmean]

/-- Claim C1: in KTOTrainer.loss the KL estimate is the mean of
policy_KL_logps minus reference_KL_logps, summed across all participating
processes by the sum reducing collective, divided by world_size and
clamped to be nonnegative: for every family of per-process local KL
estimates (the local one realised by the KL logp lists, the others
arbitrary) the reduced KL equals max of 0 and the family sum over the
family size, independent of the process count, and that same reduced
value feeds both the chosen and the rejected loss arm. -/
theorem kto_kl_reduction (cfg : LossConfig) (pd : DType) (dev : Device)
    (otherKLs pc pr pkl rc rr rkl : List ℚ) (hkl : pkl ≠ []) :
    (KTOTrainer.loss cfg pd dev (otherKLs.length + 1) otherKLs
        pc pr pkl rc rr rkl).2.2.2 =
      max 0 ((tmean (List.zipWith (· - ·) pkl rkl) :: otherKLs).sum /
        ((otherKLs.length + 1 : ℕ) : ℚ)) ∧
    (KTOTrainer.loss cfg pd dev (otherKLs.length + 1) otherKLs
        pc pr pkl rc rr rkl).1 =
      Tensor.cat
        (Tensor.scale cfg.desirable_weight
          (ktoChosenBranch cfg pd dev
            (max 0 ((tmean (List.zipWith (· - ·) pkl rkl) :: otherKLs).sum /
              ((otherKLs.length + 1 : ℕ) : ℚ))) pc rc).1)
        (Tensor.scale cfg.undesirable_weight
          (ktoRejectedBranch cfg pd dev
            (max 0 ((tmean (List.zipWith (· - ·) pkl rkl) :: otherKLs).sum /
              ((otherKLs.length + 1 : ℕ) : ℚ))) pr rr).1) := by
  have hKL : clampMin ((tmean (List.zipWith (· - ·) pkl rkl) + otherKLs.sum) /
      ((otherKLs.length + 1 : ℕ) : ℚ)) 0 =
      max 0 ((tmean (List.zipWith (· - ·) pkl rkl) :: otherKLs).sum /
        ((otherKLs.length + 1 : ℕ) : ℚ)) := by
    rw [clampMin, List.sum_cons, max_comm]
  constructor
  · simp only [KTOTrainer.loss]
    exact hKL
  · simp only [KTOTrainer.loss, hKL]

/-- Witness for kto_kl_reduction with one other process holding local
estimate 2 and local KL logp lists of mean 3. -/
theorem kto_kl_reduction_witness :
    ([(4 : ℚ)] ≠ ([] : List ℚ)) ∧
    (KTOTrainer.loss ⟨1, 1, 1⟩ 0 0 (([(2 : ℚ)]).length + 1) [(2 : ℚ)]
        [] [] [(4 : ℚ)] [] [] [(1 : ℚ)]).2.2.2 =
      max 0 ((tmean (List.zipWith (· - ·) [(4 : ℚ)] [(1 : ℚ)]) :: [(2 : ℚ)]).sum /
        ((([(2 : ℚ)]).length + 1 : ℕ) : ℚ)) :=
  ⟨by simp,
   (kto_kl_reduction ⟨1, 1, 1⟩ 0 0 [(2 : ℚ)] [] [] [(4 : ℚ)] [] [] [(1 : ℚ)]
     (by simp)).1⟩

/-- Claim C2: for a microbatch in which one polarity is absent,
KTOTrainer.loss returns for the empty arm an explicitly empty loss tensor
and an empty reward tensor carrying the configured policy dtype and the
device of the worker, rather than raising or skipping the arm; for an
all-chosen microbatch the returned losses tensor is desirable_weight times
the chosen losses concatenated with an empty rejected part, that is
desirable_weight times the chosen losses only, and symmetrically for an
all-rejected microbatch. -/
theorem kto_loss_empty_polarity (cfg : LossConfig) (pd : DType) (dev : Device)
    (ws : ℕ) (otherKLs pc pkl rc rkl pr rr : List ℚ) :
    ktoRejectedBranch cfg pd dev
        ((KTOTrainer.loss cfg pd dev ws otherKLs pc [] pkl rc [] rkl).2.2.2) [] [] =
      (⟨[], pd, dev⟩, ⟨[], pd, dev⟩) ∧
    (KTOTrainer.loss cfg pd dev ws otherKLs pc [] pkl rc [] rkl).2.2.1 =
      ⟨[], pd, dev⟩ ∧
    (KTOTrainer.loss cfg pd dev ws otherKLs pc [] pkl rc [] rkl).1 =
      Tensor.scale cfg.desirable_weight
        (ktoChosenBranch cfg pd dev
          ((KTOTrainer.loss cfg pd dev ws otherKLs pc [] pkl rc [] rkl).2.2.2)
          pc rc).1 ∧
    ktoChosenBranch cfg pd dev
        ((KTOTrainer.loss cfg pd dev ws otherKLs [] pr pkl [] rr rkl).2.2.2) [] [] =
      (⟨[], pd, dev⟩, ⟨[], pd, dev⟩) ∧
    (KTOTrainer.loss cfg pd dev ws otherKLs [] pr pkl [] rr rkl).2.1 =
      ⟨[], pd, dev⟩ ∧
    (KTOTrainer.loss cfg pd dev ws otherKLs [] pr pkl [] rr rkl).1 =
      Tensor.scale cfg.undesirable_weight
        (ktoRejectedBranch cfg pd dev
          ((KTOTrainer.loss cfg pd dev ws otherKLs [] pr pkl [] rr rkl).2.2.2)
          pr rr).1 := by
  have hrej : ∀ KL : ℚ, ktoRejectedBranch cfg pd dev KL [] [] =
      (⟨[], pd, dev⟩, ⟨[], pd, dev⟩) := by
    intro KL
    unfold ktoRejectedBranch
    simp
  have hcho : ∀ KL : ℚ, ktoChosenBranch cfg pd dev KL [] [] =
      (⟨[], pd, dev⟩, ⟨[], pd, dev⟩) := by
    intro KL
    unfold ktoChosenBranch
    simp
  have htags : ∀ (KL : ℚ) (p q : List ℚ),
      ((ktoRejectedBranch cfg pd dev KL p q).1).dtype = pd ∧
      ((ktoRejectedBranch cfg pd dev KL p q).1).device = dev := by
    intro KL p q
    unfold ktoRejectedBranch
    by_cases h : p.length ≠ 0 <;> simp [h]
  refine ⟨hrej _, ?_, ?_, hcho _, ?_, ?_⟩
  · simp only [KTOTrainer.loss, hrej]
  · simp only [KTOTrainer.loss, hrej, Tensor.scale, Tensor.cat, List.map_nil,
      List.append_nil]
  · simp only [KTOTrainer.loss, hcho]
  · obtain ⟨hd, hv⟩ := htags
      (clampMin ((tmean (List.zipWith (· - ·) pkl rkl) + otherKLs.sum) / (ws : ℚ)) 0)
      pr rr
    simp only [KTOTrainer.loss, hcho, Tensor.scale, Tensor.cat, List.map_nil,
      List.nil_append, Tensor.mk.injEq]
    exact ⟨trivial, hd.symm, hv.symm⟩

/-- Claim C4: when the policy log probabilities equal the reference log
probabilities on every example (including the KL examples for full KTO),
with beta one tenth and both weights one, all chosen and rejected log
ratios are 0, all reward entries are 0, and the per-example loss of each
of SimpleKTOTrainer.loss, KTOZeroTrainer.loss and KTOTrainer.loss is
exactly 1 minus sigmoid 0, that is one half. -/
theorem kto_variants_at_initialization (pd : DType) (dev : Device)
    (c r kl otherKLs : List ℚ) (hc : c ≠ []) (hr : r ≠ []) (hkl : kl ≠ [])
    (ho : ∀ k ∈ otherKLs, k = 0) :
    List.zipWith (· - ·) c c = List.replicate c.length 0 ∧
    List.zipWith (· - ·) r r = List.replicate r.length 0 ∧
    SimpleKTOTrainer.loss ⟨1/10, 1, 1⟩ c r c r =
      (List.replicate (c.length + r.length) ((1 : ℝ) / 2),
       List.replicate c.length 0, List.replicate r.length 0) ∧
    KTOZeroTrainer.loss ⟨1/10, 1, 1⟩ c r c r =
      (List.replicate (c.length + r.length) ((1 : ℝ) / 2),
       List.replicate c.length 0, List.replicate r.length 0) ∧
    KTOTrainer.loss ⟨1/10, 1, 1⟩ pd dev (otherKLs.length + 1) otherKLs
        c r kl c r kl =
      (⟨List.replicate (c.length + r.length) ((1 : ℝ) / 2), pd, dev⟩,
       ⟨List.replicate c.length 0, pd, dev⟩,
       ⟨List.replicate r.length 0, pd, dev⟩, 0) := by
  have hsum : otherKLs.sum = 0 := List.sum_eq_zero ho
  have hclen : c.length ≠ 0 := by simpa [List.length_eq_zero] using hc
  have hrlen : r.length ≠ 0 := by simpa [List.length_eq_zero] using hr
  have hhalf : (1 : ℝ) - sigmoid ((1 : ℚ) / 10 * ((0 : ℚ) - 0)) = 1 / 2 := by
    norm_num [sigmoid_zero]
  have hhalf2 : (1 : ℝ) - sigmoid ((1 : ℚ) / 10 * ((0 : ℚ) - (0 : ℚ))) = 1 / 2 := hhalf
  refine ⟨zipWith_sub_self c, zipWith_sub_self r, ?_, ?_, ?_⟩
  · simp only [SimpleKTOTrainer.loss, zipWith_sub_self, tmean_replicate_zero,
      List.map_replicate, List.replicate_add, Prod.mk.injEq]
    norm_num [clampMin, sigmoid_zero]
  · simp only [KTOZeroTrainer.loss, zipWith_sub_self, List.map_replicate,
      List.replicate_add, Prod.mk.injEq]
    norm_num [sigmoid_zero]
  · simp only [KTOTrainer.loss, ktoChosenBranch, ktoRejectedBranch, hclen, hrlen,
      zipWith_sub_self, tmean_replicate_zero, hsum, List.map_replicate,
      List.replicate_add, Tensor.cat, Tensor.scale, Prod.mk.injEq, Tensor.mk.injEq]
    norm_num [clampMin, sigmoid_zero]
    rw [if_neg hc, if_neg hr]
    exact ⟨⟨(List.replicate_add _ _ _).symm, rfl, rfl⟩, rfl, rfl⟩

/-- Witness for kto_variants_at_initialization at a concrete batch with
two chosen examples, one rejected example, one KL example and one other
process holding a zero local estimate. -/
theorem kto_variants_at_initialization_witness :
    (([(1 : ℚ), 2] ≠ ([] : List ℚ)) ∧ ([(3 : ℚ)] ≠ ([] : List ℚ)) ∧
      ([(5 : ℚ)] ≠ ([] : List ℚ)) ∧ ∀ k ∈ [(0 : ℚ)], k = 0) ∧
    KTOTrainer.loss ⟨1/10, 1, 1⟩ 0 0 (([(0 : ℚ)]).length + 1) [(0 : ℚ)]
        [(1 : ℚ), 2] [(3 : ℚ)] [(5 : ℚ)] [(1 : ℚ), 2] [(3 : ℚ)] [(5 : ℚ)] =
      (⟨List.replicate (([(1 : ℚ), 2]).length + ([(3 : ℚ)]).length) ((1 : ℝ) / 2), 0, 0⟩,
       ⟨List.replicate ([(1 : ℚ), 2]).length 0, 0, 0⟩,
       ⟨List.replicate ([(3 : ℚ)]).length 0, 0, 0⟩, 0) :=
  ⟨⟨by simp, by simp, by simp, by simp⟩,
   (kto_variants_at_initialization 0 0 [(1 : ℚ), 2] [(3 : ℚ)] [(5 : ℚ)] [(0 : ℚ)]
     (by simp) (by simp) (by simp) (by simp)).2.2.2.2⟩

end Trainers
